import Mathlib

/-!
# Verification of the SEO analysis tool's text-processing core

Shallow embedding of the pure computational parts of the repository
(`app.py`, `utilities/compare_pages.py`, `utilities/lightHTMLsum.py`).

Modelling conventions:
* Python strings are `List Char`; Python `None` is `Option.none`; a falsy
  string is the empty list.
* Lighthouse scores (`score / 100` in Python, a float on exact decimal
  inputs) are modelled as rationals `ℚ`.
* Network calls are modelled by passing the external service's response
  (or the response-producing oracle) as an explicit argument; the URL that
  a function would request is exposed as a separate definition.
* `re.search` for the fixed patterns `(\d+)\n<Name>` is modelled exactly:
  the leftmost position at which a maximal ASCII digit run is followed by
  the literal `"\n" ++ Name` wins, and the digit run is the captured group
  (the group is forced to be the maximal run because the character after
  the group must be `'\n'`, which is not a digit, so backtracking inside
  the run can never succeed).
-/

/-- Python `int` applied to a nonempty string of ASCII digits
(the `int(match.group(1))` in `app.py` line 123). -/
def digitsToNat (ds : List Char) : Nat :=
  ds.foldl (fun acc c => acc * 10 + (c.toNat - 48)) 0

/-- Python `s.find(pat) != -1` / `pat in s`: `pat` occurs as a contiguous
substring of the second argument. -/
def containsSub (pat : List Char) : List Char → Bool
  | [] => pat.isEmpty
  | c :: cs => List.isPrefixOf pat (c :: cs) || containsSub pat cs

/-- One anchored match attempt of the regex `(\d+)\n<name>` at the start of
`t`: the maximal digit run must be nonempty and be followed immediately by
`'\n' :: name`; the captured group is that digit run. -/
def matchAt (name t : List Char) : Option Nat :=
  let ds := t.takeWhile Char.isDigit
  if !ds.isEmpty && List.isPrefixOf ('\n' :: name) (t.dropWhile Char.isDigit) then
    some (digitsToNat ds)
  else none

/-- Python `re.search(r"(\d+)\n<name>", text)`: try every start position from
the left, return the first successful match's group as a number
(`app.py` line 121). -/
def reSearch (name : List Char) : List Char → Option Nat
  | [] => none
  | c :: cs =>
    match matchAt name (c :: cs) with
    | some n => some n
    | none => reSearch name cs

/-- The four metric names of the `patterns` dict in `app.py` lines 112-117,
in insertion order. -/
def metricNames : List String :=
  ["Performance", "Accessibility", "Best Practices", "SEO"]

/-- Score assigned to one metric by the loop in `app.py` lines 120-126:
first regex match divided by 100, or 0.0 when the pattern never matches. -/
def metricScore (name text : List Char) : ℚ :=
  match reSearch name text with
  | some n => (n : ℚ) / 100
  | none => 0

/-- `extract_metrics` (`app.py` lines 92-128): empty input yields the empty
dict; otherwise each of the four metric names is mapped to its score.
The dict is modelled as an association list in insertion order. -/
def extract_metrics (text : List Char) : List (String × ℚ) :=
  if text.isEmpty then []
  else metricNames.map (fun nm => (nm, metricScore nm.data text))

/-- The dict returned by the `except` branch of `extract_metrics`
(`app.py` lines 130-137). -/
def extract_metrics_on_error : List (String × ℚ) :=
  [("Performance", 0), ("Accessibility", 0), ("Best Practices", 0), ("SEO", 0)]

/-- Spec-side reading of "the pattern `<integer>\n<MetricName>` occurs at
position `i` of the text, with digit block `ds`". -/
def patternWitnessAt (name text : List Char) (i : Nat) (ds : List Char) : Prop :=
  ds ≠ [] ∧ (∀ c ∈ ds, Char.isDigit c = true)
    ∧ List.isPrefixOf (ds ++ '\n' :: name) (text.drop i) = true

instance (name text : List Char) (i : Nat) (ds : List Char) :
    Decidable (patternWitnessAt name text i ds) := by
  unfold patternWitnessAt
  infer_instance

/-- Spec-side reading of "the pattern `<integer>\n<MetricName>` occurs at
position `i` of the text". -/
def patternOccursAt (name text : List Char) (i : Nat) : Prop :=
  ∃ ds, patternWitnessAt name text i ds

/-- The link-acceptance test of `get_top_competitor`
(`compare_pages.py` lines 144-147): the href is truthy, contains `"https"`,
has its first `"http"` at offset 0, and does not contain `"aclk"`. -/
def acceptLink (link : List Char) : Bool :=
  !link.isEmpty && containsSub "https".data link
    && List.isPrefixOf "http".data link && !containsSub "aclk".data link

/-- The SERP-parsing loop of `get_top_competitor`
(`compare_pages.py` lines 135-167). Input: for each result block, the href
of its first anchor (`none` when the block has no anchor or the anchor has
no href, both skipped by the loop). Accepted links are kept in SERP order. -/
def collectResults : List (Option (List Char)) → List (List Char)
  | [] => []
  | none :: rest => collectResults rest
  | some link :: rest =>
    if acceptLink link then link :: collectResults rest else collectResults rest

/-- `get_top_competitor` (`compare_pages.py` lines 172-177): the first
accepted link that does not contain our domain as a substring, else `none`. -/
def get_top_competitor (our_domain : List Char)
    (serpLinks : List (Option (List Char))) : Option (List Char) :=
  (collectResults serpLinks).find? (fun link => !containsSub our_domain link)

/-- The URL that `fetch_html_content` actually requests
(`compare_pages.py` lines 57-59, then the payload at line 70):
`https://` is prepended when the url starts with neither scheme. -/
def fetch_html_content_request (url : List Char) : List Char :=
  if List.isPrefixOf "http://".data url || List.isPrefixOf "https://".data url then url
  else "https://".data ++ url

/-- The URL that `fetch_page_content` actually requests
(`compare_pages.py` lines 202-206): the url is placed in the payload as
given, with no normalization anywhere in the function body. -/
def fetch_page_content_request (url : List Char) : List Char := url

mutual
/-- An HTML element tree as seen through BeautifulSoup: a text node, or a
tag with its name, its list of CSS classes, and its children. -/
inductive Html where
  | txt : List Char → Html
  | tag : String → List String → HtmlList → Html
deriving DecidableEq
/-- A sequence of sibling HTML nodes. -/
inductive HtmlList where
  | nil : HtmlList
  | cons : Html → HtmlList → HtmlList
deriving DecidableEq
end

mutual
/-- BeautifulSoup `find_all` on one node: every element of the subtree
satisfying `p` (a predicate on tag name and classes), in document order. -/
def findAllH (p : String → List String → Bool) : Html → List Html
  | .txt _ => []
  | .tag n cls ch =>
    (if p n cls then [Html.tag n cls ch] else []) ++ findAllL p ch
/-- BeautifulSoup `find_all` over a node sequence. -/
def findAllL (p : String → List String → Bool) : HtmlList → List Html
  | .nil => []
  | .cons h t => findAllH p h ++ findAllL p t
end

/-- Python `str.strip`'s whitespace test (ASCII range). -/
def isPySpace (c : Char) : Bool :=
  c == ' ' || c == '\t' || c == '\n' || c == '\r'
    || c == Char.ofNat 11 || c == Char.ofNat 12

/-- Python `str.strip`: drop whitespace from both ends. -/
def pyStrip (s : List Char) : List Char :=
  ((s.dropWhile isPySpace).reverse.dropWhile isPySpace).reverse

mutual
/-- The raw text nodes of one node's subtree, in document order. -/
def rawTextsH : Html → List (List Char)
  | .txt s => [s]
  | .tag _ _ ch => rawTextsL ch
/-- The raw text nodes of a node sequence, in document order. -/
def rawTextsL : HtmlList → List (List Char)
  | .nil => []
  | .cons h t => rawTextsH h ++ rawTextsL t
end

/-- BeautifulSoup `tag.get_text(strip=True)`: each text node stripped,
empty ones dropped, the rest concatenated. -/
def getTextStrip (h : Html) : List Char :=
  (((rawTextsH h).map pyStrip).filter (fun s => !s.isEmpty)).flatten

/-- The first `find_all` filter of `fetch_page_content`
(`compare_pages.py` line 214): tag name `main`/`article`/`div` and at least
one CSS class among `content`/`main`/`body`. -/
def isMainContentTag (n : String) (cls : List String) : Bool :=
  (n == "main" || n == "article" || n == "div")
    && cls.any (fun c => c == "content" || c == "main" || c == "body")

/-- The fallback `find_all` filter of `fetch_page_content`
(`compare_pages.py` line 217): heading (h1-h3) or paragraph tags. -/
def isHeadingParaTag (n : String) (_cls : List String) : Bool :=
  n == "h1" || n == "h2" || n == "h3" || n == "p"

/-- The parsing done by `fetch_page_content` on a 200 response
(`compare_pages.py` lines 212-219): select main/article/content-classed
elements, fall back to headings and paragraphs when none are found, and
join each element's stripped text with single spaces. -/
def parse_page_html (doc : HtmlList) : List Char :=
  let main_content := findAllL isMainContentTag doc
  let content := if main_content.isEmpty then findAllL isHeadingParaTag doc else main_content
  List.intercalate " ".data (content.map getTextStrip)

/-- `fetch_page_content` (`compare_pages.py` lines 182-224) as a function of
the scraping proxy's response: `none` models a transport exception, a
non-200 status returns `none`, a 200 status returns the parsed text. -/
def fetch_page_content (_url : List Char)
    (response : Option (Nat × HtmlList)) : Option (List Char) :=
  match response with
  | none => none
  | some (status, doc) => if status == 200 then some (parse_page_html doc) else none

/-- The prompt template of `compare_articles` (`compare_pages.py`
lines 255-274), with the three f-string holes filled in. -/
def comparePrompt (main_keyword our_content competitor_content : List Char) : List Char :=
  "Conduct a comprehensive SEO content analysis comparing two articles:\n\n        Target Keyword: ".data
    ++ main_keyword
    ++ "\n\n        Analysis Focus:\n        - Content structure and organization\n        - Semantic relevance and topic coverage\n        - User engagement potential\n        - Content optimization patterns\n\n        Compare Article 1 (Reference) with Article 2 (Competitor) based on content quality metrics:\n        Article 1: ".data
    ++ our_content
    ++ "\n        Article 2: ".data
    ++ competitor_content
    ++ "\n\n        Provide insights on:\n        1. Structural advantages/disadvantages\n        2. Content depth and comprehensiveness\n        3. User experience and readability\n        4. SEO optimization patterns\n        5. Strategic recommendations".data

/-- `compare_articles` (`compare_pages.py` lines 226-284). The page fetches
and the generative call are oracles; the second component of the result
records, in order, the URLs whose content the function fetched. A falsy
competitor URL (absent or empty) short-circuits before any fetch. -/
def compare_articles (our_url : List Char) (competitor_url : Option (List Char))
    (main_keyword : List Char) (fetch : List Char → Option (List Char))
    (gemini : List Char → List Char) : Option (List Char) × List (List Char) :=
  let _our_domain :=
    if containsSub "//".data our_url then (our_url.splitOn '/').getD 2 []
    else (our_url.splitOn '/').getD 0 []
  match competitor_url with
  | none => (some "Could not find competitor URL".data, [])
  | some cu =>
    if cu.isEmpty then (some "Could not find competitor URL".data, [])
    else
      let our_content := fetch our_url
      let competitor_content := fetch cu
      if (our_content.getD []).isEmpty || (competitor_content.getD []).isEmpty then
        (some "Error fetching page content".data, [our_url, cu])
      else
        (some (gemini (comparePrompt main_keyword (our_content.getD [])
          (competitor_content.getD []))), [our_url, cu])

/-- The `data` dict passed to `generate_ai_report`
(`lightHTMLsum.py` lines 44-65); each field may be absent (`None`). -/
structure ReportData where
  lighthouse_data : Option (List Char)
  html_content : Option (List Char)
  website_url : Option (List Char)
  article_url : Option (List Char)

/-- `lighthouse_data = data["lighthouse_data"] if data["lighthouse_data"] else ""`
(`lightHTMLsum.py` line 62): a falsy value becomes the empty string. -/
def processedLighthouse (v : Option (List Char)) : List Char :=
  match v with
  | none => []
  | some s => if s.isEmpty then [] else s

/-- `html = data["html_content"][:3000] if data["html_content"] else ""`
(`lightHTMLsum.py` line 63): a falsy value becomes the empty string, a
truthy one is truncated to its first 3000 characters. -/
def processedHtml (v : Option (List Char)) : List Char :=
  match v with
  | none => []
  | some s => if s.isEmpty then [] else s.take 3000

/-- The prompt sent by `generate_ai_report` (`lightHTMLsum.py` lines 71-89),
with the four f-string holes filled in. -/
def aiReportPrompt (d : ReportData) : List Char :=
  "Based on these data, generate a comprehensive SEO analysis report:\n        \n        Website URL: ".data
    ++ d.website_url.getD []
    ++ "\n        Article URL: ".data
    ++ d.article_url.getD []
    ++ "\n        \n        Lighthouse Summary:\n        ".data
    ++ processedLighthouse d.lighthouse_data
    ++ "\n        \n        Homepage HTML Sample:\n        ".data
    ++ processedHtml d.html_content
    ++ "\n        \n        Please focus on:\n        1. Performance metrics and their impact\n        2. Accessibility issues and recommendations\n        3. Best practices compliance\n        4. SEO optimization opportunities\n        5. Key areas for improvement\n        ".data

/-- `generate_ai_report` (`lightHTMLsum.py` lines 44-92): the generative
endpoint, modelled as an oracle, applied to the assembled prompt. -/
def generate_ai_report (d : ReportData) (gemini : List Char → List Char) : List Char :=
  gemini (aiReportPrompt d)

/-- A sample document with one non-matching element, used as a concrete
instance for the content-fetch fallback. -/
def sampleDoc : HtmlList :=
  HtmlList.cons
    (Html.tag "span" [] (HtmlList.cons (Html.txt "x".data) HtmlList.nil))
    HtmlList.nil

/-! ## Helper lemmas about the regex model -/

theorem isPrefixOf_exists (l₁ : List Char) : ∀ l₂,
    List.isPrefixOf l₁ l₂ = true ↔ ∃ t, l₂ = l₁ ++ t := by
  induction l₁ with
  | nil =>
    intro l₂
    simp [List.isPrefixOf]
  | cons a as ih =>
    intro l₂
    cases l₂ with
    | nil => simp [List.isPrefixOf]
    | cons b bs =>
      simp only [List.isPrefixOf, Bool.and_eq_true, beq_iff_eq, ih bs]
      constructor
      · rintro ⟨rfl, t, rfl⟩
        exact ⟨t, rfl⟩
      · rintro ⟨t, ht⟩
        rw [List.cons_append] at ht
        injection ht with h1 h2
        exact ⟨h1.symm, t, h2⟩

theorem matchAt_nil (name : List Char) : matchAt name [] = none := rfl

theorem takeWhile_digits (ds r : List Char)
    (h : ∀ c ∈ ds, Char.isDigit c = true) :
    (ds ++ '\n' :: r).takeWhile Char.isDigit = ds := by
  induction ds with
  | nil =>
    have hn : Char.isDigit '\n' = false := rfl
    simp [List.takeWhile_cons, hn]
  | cons c cs ih =>
    have hc : Char.isDigit c = true := h c (by simp)
    simp [List.takeWhile_cons, hc, ih (fun x hx => h x (by simp [hx]))]

theorem dropWhile_digits (ds r : List Char)
    (h : ∀ c ∈ ds, Char.isDigit c = true) :
    (ds ++ '\n' :: r).dropWhile Char.isDigit = '\n' :: r := by
  induction ds with
  | nil =>
    have hn : Char.isDigit '\n' = false := rfl
    simp [List.dropWhile_cons, hn]
  | cons c cs ih =>
    have hc : Char.isDigit c = true := h c (by simp)
    simp [List.dropWhile_cons, hc, ih (fun x hx => h x (by simp [hx]))]

theorem matchAt_some_iff (name t : List Char) (n : Nat) :
    matchAt name t = some n ↔
      ∃ ds r, t = ds ++ '\n' :: (name ++ r) ∧ ds ≠ []
        ∧ (∀ c ∈ ds, Char.isDigit c = true) ∧ digitsToNat ds = n := by
  constructor
  · intro h
    simp only [matchAt] at h
    split at h
    · rename_i hc
      rw [Bool.and_eq_true] at hc
      obtain ⟨hne, hpre⟩ := hc
      rcases (isPrefixOf_exists _ _).mp hpre with ⟨r, hr⟩
      refine ⟨t.takeWhile Char.isDigit, r, ?_, ?_, ?_, ?_⟩
      · conv_lhs => rw [(List.takeWhile_append_dropWhile (p := Char.isDigit) (l := t)).symm]
        rw [hr]
        simp
      · intro hnil
        rw [hnil] at hne
        simp at hne
      · intro c hc
        exact List.mem_takeWhile_imp hc
      · injection h
    · exact absurd h (by simp)
  · rintro ⟨ds, r, rfl, hne, hdig, rfl⟩
    have h1 := takeWhile_digits ds (name ++ r) hdig
    have h2 := dropWhile_digits ds (name ++ r) hdig
    have h3 : List.isPrefixOf ('\n' :: name) ('\n' :: (name ++ r)) = true :=
      (isPrefixOf_exists _ _).mpr ⟨r, by simp⟩
    simp [matchAt, h1, h2, h3, hne]

theorem patternWitness_matchAt (name text : List Char) (i : Nat) (ds : List Char)
    (h : patternWitnessAt name text i ds) :
    matchAt name (text.drop i) = some (digitsToNat ds) := by
  rcases h with ⟨hne, hdig, hpre⟩
  rcases (isPrefixOf_exists _ _).mp hpre with ⟨r, hr⟩
  refine (matchAt_some_iff _ _ _).mpr ⟨ds, r, ?_, hne, hdig, rfl⟩
  rw [hr]
  simp

theorem occurs_iff_matchAt (name text : List Char) (i : Nat) :
    patternOccursAt name text i ↔ ∃ n, matchAt name (text.drop i) = some n := by
  constructor
  · rintro ⟨ds, hw⟩
    exact ⟨digitsToNat ds, patternWitness_matchAt name text i ds hw⟩
  · rintro ⟨n, hm⟩
    rcases (matchAt_some_iff _ _ _).mp hm with ⟨ds, r, ht, hne, hdig, _⟩
    refine ⟨ds, hne, hdig, (isPrefixOf_exists _ _).mpr ⟨r, ?_⟩⟩
    rw [ht]
    simp

theorem reSearch_some_of_first (name : List Char) : ∀ (text : List Char) (i n : Nat),
    matchAt name (text.drop i) = some n →
    (∀ j, j < i → matchAt name (text.drop j) = none) →
    reSearch name text = some n := by
  intro text
  induction text with
  | nil =>
    intro i n h _
    rw [List.drop_nil, matchAt_nil] at h
    exact absurd h (by simp)
  | cons c cs ih =>
    intro i n h hj
    cases i with
    | zero =>
      rw [List.drop_zero] at h
      simp [reSearch, h]
    | succ i' =>
      have h0 : matchAt name (c :: cs) = none := by
        have := hj 0 (Nat.succ_pos _)
        simpa using this
      have hstep : reSearch name (c :: cs) = reSearch name cs := by
        simp [reSearch, h0]
      rw [hstep]
      refine ih i' n (by simpa using h) (fun j hjlt => ?_)
      have := hj (j + 1) (Nat.succ_lt_succ hjlt)
      simpa using this

theorem reSearch_none_iff (name : List Char) : ∀ text,
    reSearch name text = none ↔ ∀ i, matchAt name (text.drop i) = none := by
  intro text
  induction text with
  | nil =>
    simp [reSearch, matchAt_nil]
  | cons c cs ih =>
    cases hm : matchAt name (c :: cs) with
    | some n =>
      constructor
      · intro h
        rw [reSearch, hm] at h
        exact absurd h (by simp)
      · intro h
        have := h 0
        rw [List.drop_zero, hm] at this
        exact absurd this (by simp)
    | none =>
      have hstep : reSearch name (c :: cs) = reSearch name cs := by
        simp [reSearch, hm]
      rw [hstep, ih]
      constructor
      · intro h i
        cases i with
        | zero => simpa using hm
        | succ i' => simpa using h i'
      · intro h i
        simpa using h (i + 1)

theorem matchAt_none_of_noOccur (name text : List Char)
    (h : ∀ i, ¬ patternOccursAt name text i) (i : Nat) :
    matchAt name (text.drop i) = none := by
  cases hm : matchAt name (text.drop i) with
  | none => rfl
  | some n =>
    exact absurd ((occurs_iff_matchAt name text i).mpr ⟨n, hm⟩) (h i)

theorem noOccur_of_reSearch_none (name text : List Char)
    (h : reSearch name text = none) : ∀ i, ¬ patternOccursAt name text i := by
  intro i hocc
  rcases (occurs_iff_matchAt name text i).mp hocc with ⟨n, hm⟩
  have := (reSearch_none_iff name text).mp h i
  rw [this] at hm
  exact absurd hm (by simp)

theorem metricScore_first (name text : List Char) (i : Nat) (ds : List Char)
    (hw : patternWitnessAt name text i ds)
    (hfirst : ∀ j, j < i → ¬ patternOccursAt name text j) :
    metricScore name text = (digitsToNat ds : ℚ) / 100 := by
  have h1 : matchAt name (text.drop i) = some (digitsToNat ds) :=
    patternWitness_matchAt name text i ds hw
  have h2 : ∀ j, j < i → matchAt name (text.drop j) = none := by
    intro j hjlt
    cases hm : matchAt name (text.drop j) with
    | none => rfl
    | some n =>
      exact absurd ((occurs_iff_matchAt name text j).mpr ⟨n, hm⟩) (hfirst j hjlt)
  have := reSearch_some_of_first name text i (digitsToNat ds) h1 h2
  simp [metricScore, this]

theorem metricScore_zero (name text : List Char)
    (h : ∀ i, ¬ patternOccursAt name text i) : metricScore name text = 0 := by
  have : reSearch name text = none :=
    (reSearch_none_iff name text).mpr (matchAt_none_of_noOccur name text h)
  simp [metricScore, this]

theorem witness_text_ne_nil (name text : List Char) (i : Nat) (ds : List Char)
    (hw : patternWitnessAt name text i ds) : text ≠ [] := by
  rcases hw with ⟨hne, _, hpre⟩
  intro h
  subst h
  rcases (isPrefixOf_exists _ _).mp hpre with ⟨t, ht⟩
  rw [List.drop_nil] at ht
  cases ds with
  | nil => exact hne rfl
  | cons a as => simp at ht

theorem lookup_extract_metrics (text : List Char) (h : text ≠ []) (name : String)
    (hn : name ∈ metricNames) :
    (extract_metrics text).lookup name = some (metricScore name.data text) := by
  have hni : text.isEmpty = false := by
    cases text with
    | nil => exact absurd rfl h
    | cons c cs => rfl
  fin_cases hn <;> simp [extract_metrics, hni, metricNames, List.lookup]

/-! ## Claims about the metric extractor -/

/-- Claim C1: for every input text containing an occurrence of the pattern
`<integer>\n<MetricName>` for one of the four metric names, `extract_metrics`
maps that metric name to the integer of the first such occurrence divided by
100, and maps every metric name whose pattern does not occur in the text
to 0.0. (Nonemptiness of the text, needed for the zero case, follows in the
claim's setting from the existence of some occurrence and is taken as a
hypothesis here.) -/
theorem C1_extract_metrics_first_match (text : List Char) (name : String)
    (hname : name ∈ metricNames) :
    (∀ i ds, patternWitnessAt name.data text i ds →
        (∀ j, j < i → ¬ patternOccursAt name.data text j) →
        (extract_metrics text).lookup name = some ((digitsToNat ds : ℚ) / 100))
    ∧ ((∀ i, ¬ patternOccursAt name.data text i) → text ≠ [] →
        (extract_metrics text).lookup name = some 0) := by
  constructor
  · intro i ds hw hfirst
    rw [lookup_extract_metrics text (witness_text_ne_nil name.data text i ds hw) name hname,
      metricScore_first name.data text i ds hw hfirst]
  · intro hno hne
    rw [lookup_extract_metrics text hne name hname, metricScore_zero name.data text hno]

/-- Witness for C1 on the text "85\nPerformance": the Performance pattern
occurs first at position 0 with digits "85", the SEO pattern never occurs. -/
theorem C1_witness :
    (extract_metrics "85\nPerformance".data).lookup "Performance"
        = some ((digitsToNat "85".data : ℚ) / 100)
    ∧ (extract_metrics "85\nPerformance".data).lookup "SEO" = some 0 := by
  constructor
  · exact (C1_extract_metrics_first_match "85\nPerformance".data "Performance"
      (by decide)).1 0 "85".data (by decide) (fun j hj => absurd hj (Nat.not_lt_zero j))
  · exact (C1_extract_metrics_first_match "85\nPerformance".data "SEO" (by decide)).2
      (noOccur_of_reSearch_none "SEO".data "85\nPerformance".data (by decide)) (by decide)

/-- Claim C2 counterexample: the claim says every extracted value lies in
[0.0, 1.0] on any input, but on the concrete input "200\nPerformance" the
regex matches the integer 200 and the Performance value is 200/100 = 2.0,
which exceeds 1. -/
theorem C2_counterexample :
    ("Performance", (200 : ℚ) / 100) ∈ extract_metrics "200\nPerformance".data
    ∧ ¬ ((200 : ℚ) / 100 ≤ 1) := by
  have hr : reSearch "Performance".data "200\nPerformance".data = some 200 := by decide
  have hs : metricScore "Performance".data "200\nPerformance".data = (200 : ℚ) / 100 := by
    simp [metricScore, hr]
  constructor
  · have hm : ("Performance", metricScore "Performance".data "200\nPerformance".data)
        ∈ extract_metrics "200\nPerformance".data := List.mem_cons_self _ _
    rw [hs] at hm
    exact hm
  · norm_num

/-- Claim C2 (amended): every value in the mapping returned by
`extract_metrics` is nonnegative, and is at most 1 whenever the integer the
regex matched for that metric is at most 100 (in particular whenever the
metric is unmatched, where the value is 0). The original claim fails only
because the regex also accepts integers above 100. -/
theorem C2_amended_values (text : List Char) (p : String × ℚ)
    (hp : p ∈ extract_metrics text) :
    0 ≤ p.2 ∧ ∀ n, n ≤ 100 → reSearch p.1.data text = some n → p.2 ≤ 1 := by
  have hp2 : p.2 = metricScore p.1.data text := by
    by_cases h : text.isEmpty
    · simp [extract_metrics, h] at hp
    · rw [extract_metrics, if_neg (by simp [h])] at hp
      rcases List.mem_map.mp hp with ⟨nm, _, hpe⟩
      rw [← hpe]
  constructor
  · rw [hp2]
    cases hr : reSearch p.1.data text with
    | none => simp [metricScore, hr]
    | some n =>
      simp only [metricScore, hr]
      positivity
  · intro n hn hr
    rw [hp2]
    simp only [metricScore, hr]
    rw [div_le_one (by norm_num)]
    exact_mod_cast hn

/-- Witness for the amended C2 at the text "85\nPerformance" and its
Performance entry: the value is in [0, 1]. -/
theorem C2_witness :
    0 ≤ metricScore "Performance".data "85\nPerformance".data
    ∧ metricScore "Performance".data "85\nPerformance".data ≤ 1 := by
  have h := C2_amended_values "85\nPerformance".data
    ("Performance", metricScore "Performance".data "85\nPerformance".data)
    (List.mem_cons_self _ _)
  exact ⟨h.1, h.2 85 (by decide) (by decide)⟩

/-- Claim C3: `extract_metrics` applied to the empty string (the only falsy
text value in this model) returns an empty mapping, which is distinct from
the all-zero four-entry mapping of the error path. -/
theorem C3_empty_text :
    extract_metrics [] = [] ∧ extract_metrics [] ≠ extract_metrics_on_error := by
  exact ⟨rfl, by decide⟩

/-- Claim C10: for every non-empty input text the mapping returned by
`extract_metrics` has exactly the four keys Performance, Accessibility,
Best Practices and SEO, in that order; the exception-handler dict has the
same four keys. -/
theorem C10_all_four_keys (text : List Char) (h : text ≠ []) :
    (extract_metrics text).map Prod.fst = metricNames
    ∧ extract_metrics_on_error.map Prod.fst = metricNames := by
  cases text with
  | nil => exact absurd rfl h
  | cons c cs => exact ⟨rfl, rfl⟩

/-- Witness for C10 at the one-character text "x". -/
theorem C10_witness :
    (extract_metrics "x".data).map Prod.fst = metricNames
    ∧ extract_metrics_on_error.map Prod.fst = metricNames :=
  C10_all_four_keys "x".data (by decide)

/-! ## Claims about the competitor finder -/

theorem accept_of_mem_collectResults : ∀ (links : List (Option (List Char))) (l : List Char),
    l ∈ collectResults links → acceptLink l = true := by
  intro links
  induction links with
  | nil =>
    intro l h
    simp [collectResults] at h
  | cons o rest ih =>
    intro l h
    cases o with
    | none => exact ih l (by simpa [collectResults] using h)
    | some link =>
      by_cases ha : acceptLink link
      · rw [collectResults, if_pos ha] at h
        rcases List.mem_cons.mp h with hl | hl
        · rw [hl]
          exact ha
        · exact ih l hl
      · rw [collectResults, if_neg ha] at h
        exact ih l h

theorem find?_first {α : Type} (p : α → Bool) : ∀ (l : List α) (i : Nat) (x : α),
    l[i]? = some x → p x = true →
    (∀ j y, j < i → l[j]? = some y → p y = false) →
    l.find? p = some x := by
  intro l
  induction l with
  | nil =>
    intro i x h
    simp at h
  | cons a t ih =>
    intro i x h hp hj
    cases i with
    | zero =>
      obtain rfl : a = x := by simpa using h
      exact List.find?_cons_of_pos _ hp
    | succ i' =>
      have h0 : p a = false := hj 0 a (Nat.succ_pos _) (by simp)
      rw [List.find?_cons_of_neg _ (by simp [h0])]
      exact ih i' x (by simpa using h) hp
        (fun j y hlt hy => hj (j + 1) y (Nat.succ_lt_succ hlt) (by simpa using hy))

/-- Claim C4: a SERP link enters the candidate results only if it contains
the substring "https", starts with "http" at offset 0, and does not contain
"aclk"; consequently a link containing the ad-click marker "aclk" is never
returned as the competitor, whatever its SERP position. -/
theorem C4_link_filter (links : List (Option (List Char))) (d : List Char) :
    (∀ l, l ∈ collectResults links →
        containsSub "https".data l = true
        ∧ List.isPrefixOf "http".data l = true
        ∧ containsSub "aclk".data l = false)
    ∧ (∀ l, get_top_competitor d links = some l →
        containsSub "aclk".data l = false) := by
  have key : ∀ l, l ∈ collectResults links →
      containsSub "https".data l = true
      ∧ List.isPrefixOf "http".data l = true
      ∧ containsSub "aclk".data l = false := by
    intro l hl
    have h := accept_of_mem_collectResults links l hl
    rw [acceptLink] at h
    simp only [Bool.and_eq_true, Bool.not_eq_true'] at h
    exact ⟨h.1.1.2, h.1.2, h.2⟩
  refine ⟨key, fun l hl => ?_⟩
  exact (key l (List.mem_of_find?_eq_some hl)).2.2

/-- Witness for C4: in a SERP whose first link carries the ad-click marker,
the second link is accepted and chosen, and the chosen link satisfies all
three filter conditions. -/
theorem C4_witness :
    (containsSub "https".data "https://win.example/a".data = true
      ∧ List.isPrefixOf "http".data "https://win.example/a".data = true
      ∧ containsSub "aclk".data "https://win.example/a".data = false)
    ∧ containsSub "aclk".data "https://win.example/a".data = false := by
  have h := C4_link_filter
    [some "https://ads.example/aclk=1".data, some "https://win.example/a".data]
    "mine.example".data
  exact ⟨h.1 "https://win.example/a".data (by decide),
    h.2 "https://win.example/a".data (by decide)⟩

/-- Claim C5: `get_top_competitor` returns the link of the first accepted
search result whose URL does not contain `own_domain` as a substring, in
SERP order; if every accepted link contains `own_domain` it returns
`none`. -/
theorem C5_first_non_own_domain (d : List Char) (links : List (Option (List Char))) :
    (∀ (i : Nat) (l : List Char), (collectResults links)[i]? = some l →
        containsSub d l = false →
        (∀ (j : Nat) (l' : List Char), j < i → (collectResults links)[j]? = some l' →
          containsSub d l' = true) →
        get_top_competitor d links = some l)
    ∧ ((∀ l, l ∈ collectResults links → containsSub d l = true) →
        get_top_competitor d links = none) := by
  constructor
  · intro i l hi hd hj
    refine find?_first _ (collectResults links) i l hi (by simp [hd]) ?_
    intro j y hlt hy
    simp [hj j y hlt hy]
  · intro h
    refine List.find?_eq_none.mpr ?_
    intro x hx
    simp [h x hx]

/-- Witness for C5, the spec's own example: with own domain "example.com"
and the SERP links ["https://example.com/x", "https://other.com/y"] in that
order, the chosen competitor is "https://other.com/y". -/
theorem C5_witness :
    get_top_competitor "example.com".data
        [some "https://example.com/x".data, some "https://other.com/y".data]
      = some "https://other.com/y".data := by
  refine (C5_first_non_own_domain "example.com".data
    [some "https://example.com/x".data, some "https://other.com/y".data]).1
    1 "https://other.com/y".data (by decide) (by decide) ?_
  intro j l' hj hl'
  have hj0 : j = 0 := Nat.lt_one_iff.mp hj
  subst hj0
  rw [show (collectResults [some "https://example.com/x".data,
      some "https://other.com/y".data])[0]? = some "https://example.com/x".data
    from by decide] at hl'
  injection hl' with h
  subst h
  decide

/-! ## Claims about the content fetchers and report builders -/

/-- Claim C6 counterexample: the claim says both content-fetch operations
prepend "https://" to a scheme-less URL, but `fetch_page_content` sends the
URL unchanged: on the concrete scheme-less input "example.com" the
requested URL is still "example.com", not "https://example.com". -/
theorem C6_counterexample :
    List.isPrefixOf "http://".data "example.com".data = false
    ∧ List.isPrefixOf "https://".data "example.com".data = false
    ∧ fetch_page_content_request "example.com".data
        ≠ "https://".data ++ "example.com".data := by
  decide

/-- Claim C6 (amended): `fetch_html_content` prepends "https://" whenever
the target URL starts with neither "http://" nor "https://", while
`fetch_page_content` always requests the URL exactly as given. -/
theorem C6_amended_scheme (url : List Char)
    (h1 : List.isPrefixOf "http://".data url = false)
    (h2 : List.isPrefixOf "https://".data url = false) :
    fetch_html_content_request url = "https://".data ++ url
    ∧ fetch_page_content_request url = url := by
  constructor
  · simp [fetch_html_content_request, h1, h2]
  · rfl

/-- Witness for the amended C6 at the scheme-less URL "example.com". -/
theorem C6_witness :
    fetch_html_content_request "example.com".data
        = "https://".data ++ "example.com".data
    ∧ fetch_page_content_request "example.com".data = "example.com".data :=
  C6_amended_scheme "example.com".data (by decide) (by decide)

/-- Claim C7: `compare_articles` called with an absent (or empty, the other
falsy case) competitor URL returns exactly the string
"Could not find competitor URL" and fetches no page content at all (the
second component of the result, the list of fetched URLs, is empty),
whatever the fetch and generation oracles would do. -/
theorem C7_absent_competitor (our_url keyword : List Char)
    (fetch : List Char → Option (List Char)) (gemini : List Char → List Char) :
    compare_articles our_url none keyword fetch gemini
        = (some "Could not find competitor URL".data, [])
    ∧ compare_articles our_url (some []) keyword fetch gemini
        = (some "Could not find competitor URL".data, []) :=
  ⟨rfl, rfl⟩

set_option maxRecDepth 8000 in
/-- Claim C8: `generate_ai_report` truncates a present html_content to its
first 3000 characters, substitutes the empty string for an absent
html_content or lighthouse_data, and embeds exactly the processed html in
the prompt it sends to the generative oracle. -/
theorem C8_truncation (d : ReportData) (s : List Char)
    (gemini : List Char → List Char) :
    processedHtml (some s) = s.take 3000
    ∧ processedHtml none = []
    ∧ processedLighthouse none = []
    ∧ (∃ pre suf, aiReportPrompt d = pre ++ processedHtml d.html_content ++ suf)
    ∧ generate_ai_report d gemini = gemini (aiReportPrompt d) := by
  refine ⟨?_, rfl, rfl, ?_, rfl⟩
  · cases s with
    | nil => rfl
    | cons c cs => rfl
  · refine ⟨"Based on these data, generate a comprehensive SEO analysis report:\n        \n        Website URL: ".data
      ++ d.website_url.getD []
      ++ "\n        Article URL: ".data
      ++ d.article_url.getD []
      ++ "\n        \n        Lighthouse Summary:\n        ".data
      ++ processedLighthouse d.lighthouse_data
      ++ "\n        \n        Homepage HTML Sample:\n        ".data,
      "\n        \n        Please focus on:\n        1. Performance metrics and their impact\n        2. Accessibility issues and recommendations\n        3. Best practices compliance\n        4. SEO optimization opportunities\n        5. Key areas for improvement\n        ".data, ?_⟩
    unfold aiReportPrompt
    simp only [List.append_assoc]

/-- Claim C9: on a 200 response whose document has no main/article/div
element with a content/main/body class, `fetch_page_content` falls back to
the heading (h1-h3) and paragraph tags and returns their stripped texts
joined with single spaces; when the document has none of those tags either,
it returns an empty string (`some []`), not an error (`none`). -/
theorem C9_fallback (doc : HtmlList)
    (hmain : findAllL isMainContentTag doc = []) :
    parse_page_html doc
        = List.intercalate " ".data ((findAllL isHeadingParaTag doc).map getTextStrip)
    ∧ (findAllL isHeadingParaTag doc = [] →
        ∀ url, fetch_page_content url (some (200, doc)) = some []) := by
  constructor
  · simp [parse_page_html, hmain]
  · intro hhp url
    simp only [fetch_page_content, parse_page_html, hmain, hhp]
    rfl

/-- Witness for C9 at a concrete document containing a single classless
span: no main-content element and no heading/paragraph tag, so the parse
result is empty and the fetch returns `some ""`. -/
theorem C9_witness :
    parse_page_html sampleDoc
        = List.intercalate " ".data ((findAllL isHeadingParaTag sampleDoc).map getTextStrip)
    ∧ fetch_page_content "example.com".data (some (200, sampleDoc)) = some [] := by
  have h := C9_fallback sampleDoc (by decide)
  exact ⟨h.1, h.2 (by decide) "example.com".data⟩
